import Mathlib

/-!
Verification of the excerpt-selection and publish logic of the
ministry-automation service (src/main.py), shallowly embedded in Lean.
Python strings are modelled as `List Char`; the randomness of
`random.choice` is modelled by explicit indices into the database and
chapter list; the network transport of `requests.post` is modelled as a
function from the request payload and the attempt number to either an
error (a `requests.RequestException`) or a response body.
-/

set_option maxRecDepth 4000

namespace Ministry

/-- Python ASCII whitespace, as stripped by `str.rstrip()`. -/
def isPySpace (c : Char) : Bool :=
  c = ' ' || c = '\t' || c = '\n' || c = '\r' || c = '\x0b' || c = '\x0c'

/-- `s.rstrip()`: remove trailing whitespace. -/
def rstrip (s : List Char) : List Char :=
  (s.reverse.dropWhile isPySpace).reverse

/-- Index of the last occurrence of `c` in `s`, or `none`;
models Python `s.rfind(c)` (which returns -1 for `none`). -/
def findLast (c : Char) : List Char → Option Nat
  | [] => none
  | a :: rest =>
    match findLast c rest with
    | some i => some (i + 1)
    | none => if a = c then some 0 else none

/-- The literal `"..."` suffix. -/
def ellipsis : List Char := ['.', '.', '.']

/-- Lines 58-64 of main.py: given the 2000-char candidate, truncate right
after the last period if `last_period != -1 and last_period > len(excerpt) - 200`,
otherwise fall back to the whitespace-stripped candidate. -/
def sentenceTrim (excerpt : List Char) : List Char :=
  match findLast '.' excerpt with
  | some last_period =>
    if (last_period : Int) > (excerpt.length : Int) - 200 then
      excerpt.take (last_period + 1)
    else
      rstrip excerpt
  | none => rstrip excerpt

/-- Lines 56-70 of main.py: the `text` field of the returned dict —
candidate = `full_text[:2000]`, sentence trim, then `"..."` appended
iff `len(full_text) > len(excerpt)`. -/
def makeExcerptText (full_text : List Char) : List Char :=
  let excerpt := sentenceTrim (full_text.take 2000)
  excerpt ++ (if full_text.length > excerpt.length then ellipsis else [])

/-- A chapter record: `{ text, link }` (`link` may be absent, as via `dict.get`). -/
structure Chapter where
  text : List Char
  link : Option (List Char)
deriving DecidableEq

/-- A book record: `{ main_title, author, chapters }`, the chapter mapping
kept as an association list in key order. -/
structure Book where
  main_title : List Char
  author : List Char
  chapters : List (List Char × Chapter)
deriving DecidableEq

/-- The dict returned by `get_random_chapter`. -/
structure Excerpt where
  title : List Char
  author : List Char
  chapter_name : List Char
  text : List Char
  link : Option (List Char)
deriving DecidableEq

/-- Lines 47-72 of main.py: `get_random_chapter`, with the two calls of
`random.choice` modelled by the chosen book index `bi` and chapter index
`ci`; `none` models the `IndexError` raised by `random.choice` on an
out-of-range / empty selection. -/
def get_random_chapter (database : List Book) (bi ci : Nat) : Option Excerpt :=
  match database.get? bi with
  | none => none
  | some book =>
    match book.chapters.get? ci with
    | none => none
    | some (chapter_key, chapter) =>
      some
        { title := book.main_title
          author := book.author
          chapter_name := chapter_key
          text := makeExcerptText chapter.text
          link := chapter.link }

/-- The JSON body of a response from the remote feed API; `id` models
`result.get("id")` (absent key gives `None`). -/
structure FBResponse where
  id : Option (List Char)
deriving DecidableEq

/-- Lines 81-83 of main.py: the request payload
`{"message": message, "published": "true", "access_token": access_token}`
plus `payload["link"] = link` only when `link` is truthy
(a non-`None`, non-empty string). `link = none` in the result models
the `link` key being absent from the dict. -/
structure Payload where
  message : List Char
  published : List Char
  access_token : List Char
  link : Option (List Char)
deriving DecidableEq

def buildPayload (access_token message : List Char) (link : Option (List Char)) :
    Payload :=
  { message := message
    published := ['t', 'r', 'u', 'e']
    access_token := access_token
    link :=
      match link with
      | some l => if l = [] then none else some l
      | none => none }

/-- Observable outcome of `post_to_facebook`: either a `return result`
at some attempt number, or the final re-`raise` of the last
`requests.RequestException`, or the implicit `return None` when the loop
body never runs (`max_retries < 1`). Each constructor records the number
of the attempt it happened on (= total attempts made) and the list of
`time.sleep` durations performed, in order. -/
inductive PubResult where
  | success (r : FBResponse) (attemptsMade : Nat) (sleeps : List Nat)
  | raised (e : String) (attemptsMade : Nat) (sleeps : List Nat)
  | noneReturned (sleeps : List Nat)
deriving DecidableEq

/-- The sleeps performed during a publish run. -/
def PubResult.sleeps : PubResult → List Nat
  | .success _ _ s => s
  | .raised _ _ s => s
  | .noneReturned s => s

/-- Lines 85-99 of main.py: the `for attempt in range(1, max_retries + 1)`
loop. `fuel` is the number of loop iterations left, `acc` the sleeps so
far in reverse; `transport attempt` models the
`requests.post` + `raise_for_status` + `.json()` step of attempt number
`attempt` (`Except.error` is a raised `requests.RequestException`). -/
def pubGo (transport : Nat → Except String FBResponse) (max_retries backoff : Nat) :
    Nat → Nat → List Nat → PubResult
  | 0, _, acc => .noneReturned acc.reverse
  | fuel + 1, attempt, acc =>
    match transport attempt with
    | .ok result => .success result attempt acc.reverse
    | .error e =>
      if attempt < max_retries then
        pubGo transport max_retries backoff fuel (attempt + 1) (backoff * attempt :: acc)
      else
        .raised e attempt acc.reverse

/-- Lines 76-99 of main.py: `post_to_facebook`. The payload is built once;
the loop runs attempts `1 .. max_retries`. Defaults: `max_retries = 3`,
`backoff = 5`. -/
def post_to_facebook (transport : Payload → Nat → Except String FBResponse)
    (access_token message : List Char) (link : Option (List Char))
    (max_retries : Nat := 3) (backoff : Nat := 5) : PubResult :=
  pubGo (transport (buildPayload access_token message link)) max_retries backoff
    max_retries 1 []

/-- Lines 115-119 of main.py: the message
`f"{title}, {author}\n{chapter_name}\n\n{text}"`. -/
def buildMessage (item : Excerpt) : List Char :=
  item.title ++ [',', ' '] ++ item.author ++ ['\n'] ++ item.chapter_name
    ++ ['\n', '\n'] ++ item.text

/-- The HTTP response produced by the `/post` handler: HTTP 200 with a
`{"post_id": ...}` body, or an `HTTPException` with status 500 and a
`detail` string. -/
inductive HttpResp where
  | ok (post_id : Option (List Char))
  | err (detail : String)
deriving DecidableEq

/-- The HTTP status code of a handler response. -/
def HttpResp.status : HttpResp → Nat
  | .ok _ => 200
  | .err _ => 500

/-- `str(e)` for the `IndexError` raised by `random.choice` on an empty
sequence (empty database or a book with no chapters). -/
def selectionFailureDetail : String := "Cannot choose from an empty sequence"

/-- `str(e)` for the `AttributeError` raised by `result.get("id")` when
`post_to_facebook` falls through its loop and returns `None`
(only possible with `max_retries < 1`, never with the default 3). -/
def noneGetFailureDetail : String :=
  "'NoneType' object has no attribute 'get'"

/-- Lines 113-121 of main.py: the `try` block of `create_post` — select,
format, publish, extract `result.get("id")`. `Except.error` is an
exception escaping the block, carrying `str(e)`. -/
def create_post_body (database : List Book) (bi ci : Nat)
    (access_token : List Char)
    (transport : Payload → Nat → Except String FBResponse) :
    Except String (Option (List Char)) :=
  match get_random_chapter database bi ci with
  | none => .error selectionFailureDetail
  | some item =>
    match post_to_facebook transport access_token (buildMessage item) item.link 3 5 with
    | .success result _ _ => .ok result.id
    | .raised e _ _ => .error e
    | .noneReturned _ => .error noneGetFailureDetail

/-- The HTTP 500 produced by FastAPI when the handler's return value
fails validation against `response_model=PostResponse` (lines 107-110 of
main.py: `post_id: str` rejects a `None` id); its body is the framework's
generic internal-server-error text, not a handler `detail`. -/
def responseValidationFailureDetail : String := "Internal Server Error"

/-- Lines 107-124 of main.py: `create_post` — the `try` block's value is
validated against `response_model=PostResponse` whose `post_id` field is
`str`: a string `post_id` passes and becomes the HTTP 200 body, while a
`None` `post_id` (the remote response lacking an `id` key) fails
FastAPI's response validation and yields HTTP 500; on any exception the
`except` arm raises `HTTPException(status_code=500, detail=str(e))`. -/
def create_post (database : List Book) (bi ci : Nat) (access_token : List Char)
    (transport : Payload → Nat → Except String FBResponse) : HttpResp :=
  match create_post_body database bi ci access_token transport with
  | .ok (some post_id) => .ok (some post_id)
  | .ok none => .err responseValidationFailureDetail
  | .error e => .err e

/-! ### Helper lemmas about the selector -/

theorem findLast_lt_length {c : Char} {s : List Char} {p : Nat}
    (h : findLast c s = some p) : p < s.length := by
  induction s generalizing p with
  | nil => simp [findLast] at h
  | cons a rest ih =>
    rw [findLast] at h
    cases hrest : findLast c rest with
    | some i =>
      rw [hrest] at h
      simp only [Option.some.injEq] at h
      subst h
      simpa using ih hrest
    | none =>
      rw [hrest] at h
      by_cases hac : a = c
      · simp [hac] at h
        simp [List.length_cons]
        omega
      · simp [hac] at h

theorem length_rstrip_le (s : List Char) : (rstrip s).length ≤ s.length := by
  unfold rstrip
  rw [List.length_reverse]
  calc (List.dropWhile isPySpace s.reverse).length
      ≤ s.reverse.length := (List.dropWhile_sublist _).length_le
    _ = s.length := List.length_reverse s

/-- Branch of `sentenceTrim` when the last period is strictly inside the
final 200-character window: truncate right after it. -/
theorem sentenceTrim_of_period {s : List Char} {p : Nat}
    (hp : findLast '.' s = some p)
    (hwin : (p : Int) > (s.length : Int) - 200) :
    sentenceTrim s = s.take (p + 1) := by
  unfold sentenceTrim
  rw [hp]
  simp [hwin]

/-- Branch of `sentenceTrim` when the last period exists but is not
strictly inside the final 200-character window: fall back to `rstrip`. -/
theorem sentenceTrim_of_period_far {s : List Char} {p : Nat}
    (hp : findLast '.' s = some p)
    (hwin : ¬((p : Int) > (s.length : Int) - 200)) :
    sentenceTrim s = rstrip s := by
  unfold sentenceTrim
  rw [hp]
  simp [hwin]

/-- Branch of `sentenceTrim` with no period at all: fall back to `rstrip`. -/
theorem sentenceTrim_of_no_period {s : List Char} (hp : findLast '.' s = none) :
    sentenceTrim s = rstrip s := by
  unfold sentenceTrim
  rw [hp]

theorem length_sentenceTrim_le (s : List Char) :
    (sentenceTrim s).length ≤ s.length := by
  cases hp : findLast '.' s with
  | none => rw [sentenceTrim_of_no_period hp]; exact length_rstrip_le s
  | some p =>
    by_cases hwin : (p : Int) > (s.length : Int) - 200
    · rw [sentenceTrim_of_period hp hwin, List.length_take]
      exact min_le_right _ _
    · rw [sentenceTrim_of_period_far hp hwin]
      exact length_rstrip_le s

theorem length_makeExcerptText_le (full_text : List Char) :
    (makeExcerptText full_text).length ≤ 2003 := by
  unfold makeExcerptText
  rw [List.length_append]
  have h1 : (sentenceTrim (full_text.take 2000)).length ≤ 2000 := by
    calc (sentenceTrim (full_text.take 2000)).length
        ≤ (full_text.take 2000).length := length_sentenceTrim_le _
      _ ≤ 2000 := List.length_take_le _ _
  have h2 : (if full_text.length > (sentenceTrim (full_text.take 2000)).length
      then ellipsis else []).length ≤ 3 := by
    split
    · exact le_refl _
    · exact Nat.zero_le _
  omega

/-- Unfolding of `get_random_chapter` at in-range indices. -/
theorem get_random_chapter_eq {database : List Book} {bi ci : Nat}
    {book : Book} {key : List Char} {chapter : Chapter}
    (hb : database.get? bi = some book)
    (hc : book.chapters.get? ci = some (key, chapter)) :
    get_random_chapter database bi ci =
      some { title := book.main_title, author := book.author,
             chapter_name := key, text := makeExcerptText chapter.text,
             link := chapter.link } := by
  unfold get_random_chapter
  simp only [hb, hc]

/-- Inversion of `get_random_chapter`: a returned excerpt comes from some
in-range book and chapter, with its fields as constructed. -/
theorem get_random_chapter_inv {database : List Book} {bi ci : Nat}
    {e : Excerpt} (h : get_random_chapter database bi ci = some e) :
    ∃ book key chapter, database.get? bi = some book
      ∧ book.chapters.get? ci = some (key, chapter)
      ∧ e = { title := book.main_title, author := book.author,
              chapter_name := key, text := makeExcerptText chapter.text,
              link := chapter.link } := by
  unfold get_random_chapter at h
  cases hb : database.get? bi with
  | none => simp only [hb] at h; exact Option.noConfusion h
  | some book =>
    simp only [hb] at h
    cases hc : book.chapters.get? ci with
    | none => simp only [hc] at h; exact Option.noConfusion h
    | some kc =>
      obtain ⟨key, chapter⟩ := kc
      simp only [hc, Option.some.injEq] at h
      exact ⟨book, key, chapter, rfl, hc, h.symm⟩

/-! ### Claim theorems about the excerpt selector -/

/-- Claim C3 (confirmed): whenever the selector returns an Excerpt, its
`text` field has length at most 2003 (2000 characters plus the optional
`"..."`). -/
theorem excerpt_length_bounded (database : List Book) (bi ci : Nat)
    (e : Excerpt) (h : get_random_chapter database bi ci = some e) :
    e.text.length ≤ 2003 := by
  obtain ⟨book, key, chapter, hb, hc, he⟩ := get_random_chapter_inv h
  subst he
  exact length_makeExcerptText_le chapter.text

/-- Sample fixtures used by witnesses. -/
def sampleChapter : Chapter := { text := "Hello world. ".toList, link := none }

def sampleBook : Book :=
  { main_title := "T".toList, author := "A".toList
    chapters := [("c1".toList, sampleChapter)] }

/-- Witness for `excerpt_length_bounded` on a one-book database. -/
theorem excerpt_length_bounded_witness :
    ({ title := sampleBook.main_title, author := sampleBook.author,
       chapter_name := "c1".toList,
       text := makeExcerptText sampleChapter.text,
       link := sampleChapter.link } : Excerpt).text.length ≤ 2003 :=
  excerpt_length_bounded [sampleBook] 0 0 _ rfl

/-- Claim C9 (confirmed): a chapter whose text is the empty string yields
an Excerpt whose `text` is the empty string, with no ellipsis appended. -/
theorem empty_text_empty_excerpt (database : List Book) (bi ci : Nat)
    (book : Book) (key : List Char) (chapter : Chapter)
    (hb : database.get? bi = some book)
    (hc : book.chapters.get? ci = some (key, chapter))
    (ht : chapter.text = []) :
    ∃ e : Excerpt, get_random_chapter database bi ci = some e
      ∧ e.text = [] := by
  refine ⟨_, get_random_chapter_eq hb hc, ?_⟩
  show makeExcerptText chapter.text = []
  rw [ht]
  decide

/-- Witness for `empty_text_empty_excerpt` on a one-book database with an
empty chapter text. -/
theorem empty_text_empty_excerpt_witness :
    ∃ e : Excerpt,
      get_random_chapter
          [{ main_title := "T".toList, author := "A".toList,
             chapters := [("c1".toList, { text := [], link := none })] }] 0 0
        = some e ∧ e.text = [] :=
  empty_text_empty_excerpt _ 0 0 _ _ _ rfl rfl rfl

/-- Claim C1 (corrected): for a chapter whose full text has length at most
2000 the candidate is the whole text, and the returned `text` minus any
ellipsis equals the text truncated right after its last period when that
period lies strictly inside the final 200-character window, and otherwise
equals the text with trailing whitespace stripped; the `"..."` is appended
exactly when this result is shorter than the full text. (The original
claim — that the result is always the rstripped full text with no
ellipsis — is refuted by `short_text_excerpt_claim_false`.) -/
theorem short_text_excerpt_shape (full : List Char)
    (hlen : full.length ≤ 2000) :
    (∀ p : Nat, findLast '.' full = some p →
      (p : Int) > (full.length : Int) - 200 →
      makeExcerptText full =
        full.take (p + 1) ++ (if p + 1 < full.length then ellipsis else []))
    ∧ ((∀ p : Nat, findLast '.' full = some p →
        ¬((p : Int) > (full.length : Int) - 200)) →
      makeExcerptText full =
        rstrip full ++
          (if (rstrip full).length < full.length then ellipsis else [])) := by
  have htake : full.take 2000 = full := List.take_of_length_le hlen
  constructor
  · intro p hp hwin
    have hlt : p < full.length := findLast_lt_length hp
    have htrim : sentenceTrim (full.take 2000) = full.take (p + 1) := by
      rw [htake]
      exact sentenceTrim_of_period hp hwin
    have hlen2 : (full.take (p + 1)).length = p + 1 :=
      List.length_take_of_le (by omega)
    simp only [makeExcerptText, htrim, hlen2, gt_iff_lt]
  · intro hfar
    have htrim : sentenceTrim (full.take 2000) = rstrip full := by
      rw [htake]
      cases hp : findLast '.' full with
      | none => exact sentenceTrim_of_no_period hp
      | some p => exact sentenceTrim_of_period_far hp (hfar p hp)
    simp only [makeExcerptText, htrim, gt_iff_lt]

/-- Witness for `short_text_excerpt_shape` at the 7-character text
`"Hi. yes"`, whose last period sits at index 2. -/
theorem short_text_excerpt_shape_witness :
    makeExcerptText "Hi. yes".toList =
      "Hi. yes".toList.take (2 + 1)
        ++ (if 2 + 1 < "Hi. yes".toList.length then ellipsis else []) :=
  (short_text_excerpt_shape "Hi. yes".toList (by decide)).1 2
    (by decide) (by decide)

/-- Counterexample to claim C1 as stated: the text `"Hi. yes"` has length
7 ≤ 2000, yet the selector returns `"Hi...."` — it truncates at the last
period and appends an ellipsis, so the returned text (with or without the
ellipsis removed) differs from the rstripped full text, and an ellipsis
is appended. -/
theorem short_text_excerpt_claim_false :
    "Hi. yes".toList.length ≤ 2000
    ∧ makeExcerptText "Hi. yes".toList = "Hi.".toList ++ ellipsis
    ∧ rstrip "Hi. yes".toList = "Hi. yes".toList
    ∧ makeExcerptText "Hi. yes".toList ≠ rstrip "Hi. yes".toList
    ∧ makeExcerptText "Hi. yes".toList
        ≠ rstrip "Hi. yes".toList ++ ellipsis := by
  decide

/-- Claim C2 (corrected): the truncation fires exactly when the last
period's index exceeds `candidate length - 200`, i.e. when the period
lies strictly inside the final 199 characters; a last period at exactly
200 characters from the candidate's end (index = length - 200) does NOT
trigger truncation and falls back to the rstripped candidate. (The
original boundary claim is refuted by
`period_at_exactly_200_not_truncated`.) -/
theorem period_window_truncation (full : List Char) (p : Nat) :
    (findLast '.' (full.take 2000) = some p →
      (p : Int) > ((full.take 2000).length : Int) - 200 →
      sentenceTrim (full.take 2000) = (full.take 2000).take (p + 1))
    ∧ (findLast '.' (full.take 2000) = some p →
      (p : Int) = ((full.take 2000).length : Int) - 200 →
      sentenceTrim (full.take 2000) = rstrip (full.take 2000)) := by
  constructor
  · intro hp hwin
    exact sentenceTrim_of_period hp hwin
  · intro hp heq
    exact sentenceTrim_of_period_far hp (by omega)

/-- A 200-character text whose only (hence last) period is at index 0,
exactly 200 characters from the end. -/
def boundaryText : List Char := '.' :: List.replicate 199 'a'

/-- Witness for `period_window_truncation`: on `"ab."` the last period is
at index 2, strictly inside the window, and the candidate is truncated to
end at it. -/
theorem period_window_truncation_witness :
    sentenceTrim ("ab.".toList.take 2000) =
      ("ab.".toList.take 2000).take (2 + 1) :=
  (period_window_truncation "ab.".toList 2).1 (by decide) (by decide)

/-- Counterexample to claim C2's boundary case: on `boundaryText` the
candidate is the full 200-character text, its last period is at index 0 —
exactly 200 characters from the end, hence within the final 200
characters — yet the selector does not truncate: it returns the whole
candidate, not the one-character prefix ending at the period. -/
theorem period_at_exactly_200_not_truncated :
    boundaryText.length = 200
    ∧ findLast '.' (boundaryText.take 2000) = some 0
    ∧ ((boundaryText.take 2000).length : Int) - 200 ≤ (0 : Int)
    ∧ sentenceTrim (boundaryText.take 2000) = boundaryText
    ∧ makeExcerptText boundaryText = boundaryText
    ∧ boundaryText ≠ (boundaryText.take 2000).take (0 + 1) := by
  decide

/-- The first line of a message: everything before the first newline. -/
def firstLine (s : List Char) : List Char :=
  s.takeWhile (fun c => c != '\n')

theorem firstLine_append_stop (l r : List Char) (hl : '\n' ∉ l) :
    firstLine (l ++ '\n' :: r) = l := by
  unfold firstLine
  rw [List.takeWhile_append_of_pos, List.takeWhile_cons_of_neg]
  · simp
  · simp
  · intro a ha
    simp only [bne_iff_ne, ne_eq]
    intro hh
    exact hl (hh ▸ ha)

/-- Claim C4 (confirmed): the message the handler passes to the Publisher
is `f"{title}, {author}\n{chapter_name}\n\n{text}"`, so (for title and
author without embedded newlines) its first line is exactly the book's
title followed by `", "` followed by the book's author. -/
theorem message_first_line (database : List Book) (bi ci : Nat)
    (book : Book) (e : Excerpt)
    (hb : database.get? bi = some book)
    (he : get_random_chapter database bi ci = some e)
    (hT : '\n' ∉ book.main_title) (hA : '\n' ∉ book.author) :
    firstLine (buildMessage e) =
      book.main_title ++ [',', ' '] ++ book.author := by
  obtain ⟨book2, key, chapter, hb2, hc2, hee⟩ := get_random_chapter_inv he
  rw [hb] at hb2
  injection hb2 with hbb
  subst hbb
  subst hee
  have hshape : buildMessage
      { title := book.main_title, author := book.author,
        chapter_name := key, text := makeExcerptText chapter.text,
        link := chapter.link } =
      (book.main_title ++ [',', ' '] ++ book.author)
        ++ '\n' :: (key ++ '\n' :: '\n' :: makeExcerptText chapter.text) := by
    simp [buildMessage, List.append_assoc]
  rw [hshape, firstLine_append_stop]
  intro hmem
  rcases List.mem_append.mp hmem with hmem2 | hA2
  · rcases List.mem_append.mp hmem2 with hT2 | hcomma
    · exact hT hT2
    · simp at hcomma
  · exact hA hA2

/-- Witness for `message_first_line` on a one-book database. -/
theorem message_first_line_witness :
    firstLine (buildMessage
      { title := sampleBook.main_title, author := sampleBook.author,
        chapter_name := "c1".toList,
        text := makeExcerptText sampleChapter.text,
        link := sampleChapter.link }) =
      sampleBook.main_title ++ [',', ' '] ++ sampleBook.author :=
  message_first_line [sampleBook] 0 0 sampleBook _ rfl rfl
    (by decide) (by decide)

/-! ### Helper lemmas about the publish loop -/

/-- If every attempt up to `max_retries` fails, the loop runs to attempt
`max_retries` and re-raises that attempt's failure, sleeping
`backoff * k` after each earlier attempt `k`. -/
theorem pubGo_all_fail (transport : Nat → Except String FBResponse)
    (max_retries backoff : Nat) (e : String)
    (hlast : transport max_retries = Except.error e)
    (hfail : ∀ n, 1 ≤ n → n ≤ max_retries →
      ∃ msg, transport n = Except.error msg) :
    ∀ fuel attempt acc, attempt + fuel = max_retries + 1 → 1 ≤ attempt →
      attempt ≤ max_retries →
      pubGo transport max_retries backoff fuel attempt acc =
        .raised e max_retries
          (acc.reverse ++
            (List.range' attempt (max_retries - attempt)).map
              (fun k => backoff * k)) := by
  intro fuel
  induction fuel with
  | zero => intro attempt acc hsum h1 hle; omega
  | succ fuel ih =>
    intro attempt acc hsum h1 hle
    obtain ⟨msg, hmsg⟩ := hfail attempt h1 hle
    by_cases hlt : attempt < max_retries
    · have hrec := ih (attempt + 1) (backoff * attempt :: acc)
        (by omega) (by omega) (by omega)
      simp only [pubGo, hmsg, if_pos hlt, hrec]
      have hn : max_retries - attempt = (max_retries - (attempt + 1)) + 1 := by
        omega
      rw [hn, List.range'_succ]
      simp
    · have hattempt : attempt = max_retries := by omega
      subst hattempt
      have hee : msg = e := by
        rw [hmsg] at hlast
        exact (Except.error.injEq _ _ |>.mp hlast.symm).symm
      simp only [pubGo, hmsg, if_neg hlt, hee]
      simp

/-- The loop sleeps at most `max_retries - attempt` more times beyond the
sleeps already accumulated. -/
theorem pubGo_sleeps_length (transport : Nat → Except String FBResponse)
    (max_retries backoff : Nat) :
    ∀ fuel attempt acc,
      ((pubGo transport max_retries backoff fuel attempt acc).sleeps).length
        ≤ acc.length + (max_retries - attempt) := by
  intro fuel
  induction fuel with
  | zero =>
    intro attempt acc
    simp [pubGo, PubResult.sleeps]
  | succ fuel ih =>
    intro attempt acc
    cases hmsg : transport attempt with
    | ok r => simp [pubGo, hmsg, PubResult.sleeps]
    | error msg =>
      by_cases hlt : attempt < max_retries
      · simp only [pubGo, hmsg, if_pos hlt]
        calc ((pubGo transport max_retries backoff fuel (attempt + 1)
                (backoff * attempt :: acc)).sleeps).length
            ≤ (backoff * attempt :: acc).length
                + (max_retries - (attempt + 1)) := ih (attempt + 1) _
          _ ≤ acc.length + (max_retries - attempt) := by
              simp [List.length_cons]
              omega
      · simp only [pubGo, hmsg, if_neg hlt]
        simp [PubResult.sleeps]

/-- If attempts `1 .. k-1` fail and attempt `k ≤ max_retries` succeeds
with body `r`, the loop stops at attempt `k` returning `r`, having slept
`backoff * n` after each failed attempt `n < k`. -/
theorem pubGo_first_success (transport : Nat → Except String FBResponse)
    (max_retries backoff : Nat) (r : FBResponse) (k : Nat)
    (hok : transport k = Except.ok r)
    (hfail : ∀ n, 1 ≤ n → n < k → ∃ msg, transport n = Except.error msg)
    (hkm : k ≤ max_retries) :
    ∀ fuel attempt acc, attempt + fuel = max_retries + 1 → 1 ≤ attempt →
      attempt ≤ k →
      pubGo transport max_retries backoff fuel attempt acc =
        .success r k
          (acc.reverse ++
            (List.range' attempt (k - attempt)).map (fun n => backoff * n)) := by
  intro fuel
  induction fuel with
  | zero => intro attempt acc hsum h1 hk; omega
  | succ fuel ih =>
    intro attempt acc hsum h1 hk
    by_cases hak : attempt = k
    · subst hak
      simp only [pubGo, hok]
      simp
    · have hltk : attempt < k := by omega
      obtain ⟨msg, hmsg⟩ := hfail attempt h1 hltk
      have hlt : attempt < max_retries := by omega
      have hrec := ih (attempt + 1) (backoff * attempt :: acc)
        (by omega) (by omega) (by omega)
      simp only [pubGo, hmsg, if_pos hlt, hrec]
      have hn : k - attempt = (k - (attempt + 1)) + 1 := by omega
      rw [hn, List.range'_succ]
      simp

/-! ### Claim theorems about the Publisher -/

/-- Claim C5 (confirmed): with a transport on which every delivery attempt
fails and `max_retries ≥ 1`, `post_to_facebook` makes exactly
`max_retries` attempts — no more, no fewer (the `attemptsMade` index of
the outcome) — and then re-raises the failure of the last attempt to the
caller. -/
theorem publish_all_fail_exhausts
    (transport : Payload → Nat → Except String FBResponse)
    (access_token message : List Char) (link : Option (List Char))
    (max_retries backoff : Nat) (hmr : 1 ≤ max_retries)
    (hfail : ∀ p n, ∃ msg, transport p n = Except.error msg) :
    ∃ e : String,
      transport (buildPayload access_token message link) max_retries
          = Except.error e
      ∧ post_to_facebook transport access_token message link
            max_retries backoff
          = .raised e max_retries
              ((List.range' 1 (max_retries - 1)).map (fun k => backoff * k)) := by
  obtain ⟨e, he⟩ := hfail (buildPayload access_token message link) max_retries
  refine ⟨e, he, ?_⟩
  have h := pubGo_all_fail (transport (buildPayload access_token message link))
    max_retries backoff e he
    (fun n _ _ => hfail (buildPayload access_token message link) n)
    max_retries 1 [] (by omega) (by omega) hmr
  unfold post_to_facebook
  simpa using h

/-- A transport every attempt of which fails. -/
def alwaysFailTransport : Payload → Nat → Except String FBResponse :=
  fun _ _ => Except.error "network down"

/-- Witness for `publish_all_fail_exhausts` at the default settings. -/
theorem publish_all_fail_exhausts_witness :
    ∃ e : String,
      alwaysFailTransport (buildPayload [] [] none) 3 = Except.error e
      ∧ post_to_facebook alwaysFailTransport [] [] none 3 5
          = .raised e 3 ((List.range' 1 (3 - 1)).map (fun k => 5 * k)) :=
  publish_all_fail_exhausts alwaysFailTransport [] [] none 3 5 (by omega)
    (fun _ _ => ⟨"network down", rfl⟩)

/-- Claim C6 (confirmed): under the default settings
(`max_retries = 3`, `backoff = 5`), a run whose first two attempts fail
sleeps exactly 5 seconds then 10 seconds (`backoff * attempt` after each
failed non-final attempt); and for any settings the number of sleeps
never exceeds `max_retries - 1`. -/
theorem publish_backoff_schedule
    (transport : Payload → Nat → Except String FBResponse)
    (access_token message : List Char) (link : Option (List Char))
    (e1 e2 : String)
    (h1 : transport (buildPayload access_token message link) 1
      = Except.error e1)
    (h2 : transport (buildPayload access_token message link) 2
      = Except.error e2) :
    (post_to_facebook transport access_token message link 3 5).sleeps
        = [5, 10]
    ∧ ∀ (tr2 : Payload → Nat → Except String FBResponse)
        (tok2 msg2 : List Char) (link2 : Option (List Char)) (mr b : Nat),
        ((post_to_facebook tr2 tok2 msg2 link2 mr b).sleeps).length
          ≤ mr - 1 := by
  constructor
  · unfold post_to_facebook
    cases h3 : transport (buildPayload access_token message link) 3 with
    | ok r => simp [pubGo, h1, h2, h3, PubResult.sleeps]
    | error e => simp [pubGo, h1, h2, h3, PubResult.sleeps]
  · intro tr2 tok2 msg2 link2 mr b
    have h := pubGo_sleeps_length (tr2 (buildPayload tok2 msg2 link2))
      mr b mr 1 []
    unfold post_to_facebook
    simpa using h

/-- Witness for `publish_backoff_schedule` on an always-failing
transport. -/
theorem publish_backoff_schedule_witness :
    (post_to_facebook alwaysFailTransport [] [] none 3 5).sleeps = [5, 10] :=
  (publish_backoff_schedule alwaysFailTransport [] [] none
    "network down" "network down" rfl rfl).1

/-- Claim C7 (confirmed): if the first `k - 1` delivery attempts fail and
attempt `k ≤ max_retries` succeeds with response body `r`, then
`post_to_facebook` returns `r` at attempt `k` — it stops retrying after
the success — and the request handler's `try` block extracts the `id`
field of that body as the `post_id` value (line 121's
`result.get("id")`); when that field is present it passes response
validation and is the `post_id` the handler responds with. -/
theorem publish_success_returns_id (database : List Book) (bi ci : Nat)
    (access_token : List Char) (e : Excerpt)
    (transport : Payload → Nat → Except String FBResponse)
    (r : FBResponse) (k : Nat)
    (he : get_random_chapter database bi ci = some e)
    (hk1 : 1 ≤ k) (hk3 : k ≤ 3)
    (hok : transport (buildPayload access_token (buildMessage e) e.link) k
      = Except.ok r)
    (hfail : ∀ n, 1 ≤ n → n < k →
      ∃ msg, transport (buildPayload access_token (buildMessage e) e.link) n
        = Except.error msg) :
    post_to_facebook transport access_token (buildMessage e) e.link 3 5
        = .success r k ((List.range' 1 (k - 1)).map (fun n => 5 * n))
    ∧ create_post_body database bi ci access_token transport
        = Except.ok r.id
    ∧ (∀ pid : List Char, r.id = some pid →
        create_post database bi ci access_token transport
          = HttpResp.ok (some pid)) := by
  have hpub :
      post_to_facebook transport access_token (buildMessage e) e.link 3 5
        = .success r k ((List.range' 1 (k - 1)).map (fun n => 5 * n)) := by
    have h := pubGo_first_success
      (transport (buildPayload access_token (buildMessage e) e.link))
      3 5 r k hok hfail hk3 3 1 [] (by omega) (by omega) hk1
    unfold post_to_facebook
    simpa using h
  have hbody : create_post_body database bi ci access_token transport
      = Except.ok r.id := by
    unfold create_post_body
    simp only [he, hpub]
  refine ⟨hpub, hbody, ?_⟩
  intro pid hpid
  unfold create_post
  simp only [hbody, hpid]

/-- A transport that succeeds on every attempt with post id "123". -/
def okTransport : Payload → Nat → Except String FBResponse :=
  fun _ _ => Except.ok { id := some "123".toList }

/-- The excerpt `get_random_chapter` produces from `[sampleBook]`. -/
def sampleExcerpt : Excerpt :=
  { title := sampleBook.main_title, author := sampleBook.author
    chapter_name := "c1".toList
    text := makeExcerptText sampleChapter.text
    link := sampleChapter.link }

/-- Witness for `publish_success_returns_id`: immediate success on the
first attempt. -/
theorem publish_success_returns_id_witness :
    post_to_facebook okTransport [] (buildMessage sampleExcerpt)
        sampleExcerpt.link 3 5
      = .success { id := some "123".toList } 1
          ((List.range' 1 (1 - 1)).map (fun n => 5 * n))
    ∧ create_post_body [sampleBook] 0 0 [] okTransport
      = Except.ok ({ id := some "123".toList } : FBResponse).id
    ∧ (∀ pid : List Char, ({ id := some "123".toList } : FBResponse).id = some pid →
        create_post [sampleBook] 0 0 [] okTransport = HttpResp.ok (some pid)) :=
  publish_success_returns_id [sampleBook] 0 0 [] sampleExcerpt okTransport
    { id := some "123".toList } 1 rfl (by omega) (by omega) rfl
    (fun n h1 h2 => absurd h2 (by omega))

/-- Claim C8 (confirmed): any failure escaping the handler's `try` block —
a selection error, a publish error, or the unexpected `AttributeError` —
is caught and turned into an HTTP 500 response whose `detail` is the
error's textual description; a run that produces a `post_id` string
yields HTTP 200 with that `post_id` body; and a run whose `post_id` is
`None` fails the `response_model=PostResponse` validation and also yields
HTTP 500 rather than 200. -/
theorem handler_error_propagation (database : List Book) (bi ci : Nat)
    (access_token : List Char)
    (transport : Payload → Nat → Except String FBResponse) :
    (∀ e : String,
      create_post_body database bi ci access_token transport = Except.error e →
      create_post database bi ci access_token transport = HttpResp.err e
      ∧ (create_post database bi ci access_token transport).status = 500)
    ∧ (∀ pid : List Char,
      create_post_body database bi ci access_token transport
          = Except.ok (some pid) →
      create_post database bi ci access_token transport = HttpResp.ok (some pid)
      ∧ (create_post database bi ci access_token transport).status = 200)
    ∧ (create_post_body database bi ci access_token transport
          = Except.ok none →
      create_post database bi ci access_token transport
          = HttpResp.err responseValidationFailureDetail
      ∧ (create_post database bi ci access_token transport).status = 500) := by
  refine ⟨?_, ?_, ?_⟩
  · intro e he
    unfold create_post
    simp only [he]
    exact ⟨trivial, rfl⟩
  · intro pid hpid
    unfold create_post
    simp only [hpid]
    exact ⟨trivial, rfl⟩
  · intro hnone
    unfold create_post
    simp only [hnone]
    exact ⟨trivial, rfl⟩

/-- A transport that succeeds but whose response body lacks an `id` key. -/
def okNoIdTransport : Payload → Nat → Except String FBResponse :=
  fun _ _ => Except.ok { id := none }

/-- Witness for `handler_error_propagation`: an empty database gives the
selection failure as a 500, a clean run gives a 200 with the post id,
and a success whose response lacks an `id` gives a 500 via response
validation. -/
theorem handler_error_propagation_witness :
    (create_post [] 0 0 [] okTransport = HttpResp.err selectionFailureDetail
      ∧ (create_post [] 0 0 [] okTransport).status = 500)
    ∧ (create_post [sampleBook] 0 0 [] okTransport
        = HttpResp.ok (some "123".toList)
      ∧ (create_post [sampleBook] 0 0 [] okTransport).status = 200)
    ∧ (create_post [sampleBook] 0 0 [] okNoIdTransport
        = HttpResp.err responseValidationFailureDetail
      ∧ (create_post [sampleBook] 0 0 [] okNoIdTransport).status = 500) :=
  ⟨(handler_error_propagation [] 0 0 [] okTransport).1
      selectionFailureDetail rfl,
   (handler_error_propagation [sampleBook] 0 0 [] okTransport).2.1
      "123".toList rfl,
   (handler_error_propagation [sampleBook] 0 0 [] okNoIdTransport).2.2 rfl⟩

/-- Claim C10 (confirmed): the payload built by `post_to_facebook`
carries a `link` key exactly when the `link` argument is a non-empty
string; an empty string produces the same payload as passing `None`. -/
theorem payload_link_field (access_token message : List Char)
    (link : Option (List Char)) :
    buildPayload access_token message (some [])
        = buildPayload access_token message none
    ∧ (buildPayload access_token message none).link = none
    ∧ ((buildPayload access_token message link).link ≠ none
        ↔ ∃ l, link = some l ∧ l ≠ []) := by
  refine ⟨by simp [buildPayload], by simp [buildPayload], ?_⟩
  cases link with
  | none => simp [buildPayload]
  | some l =>
    by_cases hl : l = []
    · subst hl
      simp [buildPayload]
    · simp [buildPayload, hl]

end Ministry
